import Mathlib

/-!
Shallow embedding of `oblivius-updater.py`, the interactive package-update
TUI of the hyprland-dotfiles repository, together with proofs about its
adapter parsing, update executor and interaction state machine.

Subprocess calls are modelled by oracles: a discovery command is represented
by its return code and captured stdout text, and each per-package update
command by a function from the package to its `CmdResult` (return code and
captured stderr). Everything else is translated line by line from the
Python source.
-/

set_option autoImplicit false

namespace Oblivius

/-- Mirrors the Python enum `PackageSource`. -/
inductive PackageSource where
  | official
  | aur
  | flatpak
deriving DecidableEq, Repr

/-- Mirrors the Python dataclass `Package` (field `selected` defaults to
`True` in the source; every construction site passes it explicitly here). -/
structure Package where
  name : String
  current_version : String
  new_version : String
  source : PackageSource
  selected : Bool
deriving DecidableEq, Repr

/-- Mirrors the Python dataclass `UpdateResult`. -/
structure UpdateResult where
  name : String
  source : PackageSource
  success : Bool
  error : String
deriving DecidableEq, Repr

/-! ### Python string primitives

The adapters use `str.split()` (runs of whitespace, empties discarded),
`str.split("\n")` / `str.split("\t")` (single separator, empties kept),
and `str.strip()`. They are implemented by structural recursion over the
character list so that concrete runs reduce in the kernel. -/

/-- Characters Python's `str.strip` / `str.split()` treat as whitespace. -/
def pyIsSpace (c : Char) : Bool :=
  c = ' ' || c = '\t' || c = '\n' || c = '\r' || c = '\x0b' || c = '\x0c'

/-- Helper for `pysplit`: accumulates the current field in reverse. -/
def splitWsAux : List Char → List Char → List (List Char)
  | acc, [] => if acc = [] then [] else [acc.reverse]
  | acc, c :: cs =>
    if pyIsSpace c then
      if acc = [] then splitWsAux [] cs else acc.reverse :: splitWsAux [] cs
    else splitWsAux (c :: acc) cs

/-- Python `s.split()`: split on runs of whitespace, discarding empty fields. -/
def pysplit (s : String) : List String :=
  (splitWsAux [] s.toList).map String.mk

/-- Helper for `pysplitOn`: accumulates the current field in reverse. -/
def splitCharAux (sep : Char) : List Char → List Char → List (List Char)
  | acc, [] => [acc.reverse]
  | acc, c :: cs =>
    if c = sep then acc.reverse :: splitCharAux sep [] cs
    else splitCharAux sep (c :: acc) cs

/-- Python `s.split(sep)` for a one-character separator: empty fields kept,
the result is never the empty list. -/
def pysplitOn (sep : Char) (s : String) : List String :=
  (splitCharAux sep [] s.toList).map String.mk

/-- Python `s.split("\n")`. -/
def splitLines (s : String) : List String := pysplitOn '\n' s

/-- Python `s.split("\t")`. -/
def splitTab (s : String) : List String := pysplitOn '\t' s

/-- Python `s.strip()`: remove leading and trailing whitespace. -/
def pystrip (s : String) : String :=
  String.mk (((s.toList.dropWhile pyIsSpace).reverse.dropWhile pyIsSpace).reverse)

/-! ### Source adapters

Each adapter is modelled as a pure function of the external tool's return
code and stdout text (the `subprocess.run` result). A `TimeoutExpired` or
`FileNotFoundError` path returns the empty list, which coincides with
passing a nonzero `returncode`. -/

/-- One line of `checkupdates` output, from `get_official_updates`:
`if len(parts) >= 4`, build `Package(parts[0], parts[1], parts[3], OFFICIAL)`;
otherwise the line produces nothing. -/
def parseOfficialLine (line : String) : List Package :=
  let parts := pysplit line
  if parts.length ≥ 4 then
    [⟨parts.getD 0 "", parts.getD 1 "", parts.getD 3 "", PackageSource.official, true⟩]
  else []

/-- `get_official_updates`: parse the `checkupdates` stdout when the call
succeeded (`returncode == 0`) and the stripped stdout is nonempty. -/
def get_official_updates (returncode : Int) (stdout : String) : List Package :=
  if returncode = 0 ∧ pystrip stdout ≠ "" then
    (splitLines (pystrip stdout)).flatMap parseOfficialLine
  else []

/-- One line of `helper -Qum` output, from `get_aur_updates`:
four or more fields give a full package; two or three fields give a partial
package with new version `"?"`; fewer produce nothing. -/
def parseAurLine (line : String) : List Package :=
  let parts := pysplit line
  if parts.length ≥ 4 then
    [⟨parts.getD 0 "", parts.getD 1 "", parts.getD 3 "", PackageSource.aur, true⟩]
  else if parts.length ≥ 2 then
    [⟨parts.getD 0 "", if parts.length > 1 then parts.getD 1 "" else "?", "?",
      PackageSource.aur, true⟩]
  else []

/-- `get_aur_updates`: parse the AUR helper's `-Qum` stdout when the call
succeeded and the stripped stdout is nonempty. -/
def get_aur_updates (returncode : Int) (stdout : String) : List Package :=
  if returncode = 0 ∧ pystrip stdout ≠ "" then
    (splitLines (pystrip stdout)).flatMap parseAurLine
  else []

/-- One line of `flatpak remote-ls --updates` output, from
`get_flatpak_updates`: tab-separated; a nonempty stripped first column is
the name, the second column (or `"?"` when absent) the new version. -/
def parseFlatpakLine (line : String) : List Package :=
  let parts := splitTab line
  let name := pystrip (parts.getD 0 "")
  let new_version := if parts.length > 1 then pystrip (parts.getD 1 "") else "?"
  if name ≠ "" then [⟨name, "installed", new_version, PackageSource.flatpak, true⟩]
  else []

/-- `get_flatpak_updates`: returns nothing when the `flatpak` binary is
absent; otherwise parses the remote-ls stdout when the call succeeded and
the stripped stdout is nonempty. -/
def get_flatpak_updates (flatpakAvailable : Bool) (returncode : Int) (stdout : String) :
    List Package :=
  if flatpakAvailable then
    if returncode = 0 ∧ pystrip stdout ≠ "" then
      (splitLines (pystrip stdout)).flatMap parseFlatpakLine
    else []
  else []

/-! ### Update executor

`subprocess.run` for one package's update command is abstracted by an
oracle `exec : Package → CmdResult` giving the return code and captured
stderr of that command (the command line itself is determined by the
package's source, so the oracle is keyed by the package). -/

/-- Return code and captured stderr of one external update command. -/
structure CmdResult where
  returncode : Int
  stderr : String
deriving DecidableEq, Repr

/-- The failure-capture policy of `run_updates`:
`error_lines = [l.strip() for l in stderr.split("\n") if l.strip()]`,
then the last such line, or `"Unknown error"` when there is none. -/
def lastError (stderr : String) : String :=
  let error_lines :=
    (splitLines stderr).filterMap (fun l => if pystrip l ≠ "" then some (pystrip l) else none)
  match error_lines.getLast? with
  | some e => e
  | none => "Unknown error"

/-- One iteration of an update loop in `run_updates`: run the package's
command and build its `UpdateResult`. -/
def runOne (exec : Package → CmdResult) (pkg : Package) : UpdateResult :=
  let result := exec pkg
  if result.returncode ≠ 0 then
    ⟨pkg.name, pkg.source, false, lastError result.stderr⟩
  else
    ⟨pkg.name, pkg.source, true, ""⟩

/-- The body of `UpdaterTUI.run_updates` acting on the selected packages:
partition by source, process official + AUR through the AUR helper when one
was detected (and the merged batch is nonempty), then process flatpaks. -/
def execute (aurHelper : Option String) (exec : Package → CmdResult)
    (selected : List Package) : List UpdateResult :=
  let official := selected.filter (fun p => decide (p.source = PackageSource.official))
  let aur := selected.filter (fun p => decide (p.source = PackageSource.aur))
  let flatpaks := selected.filter (fun p => decide (p.source = PackageSource.flatpak))
  let pacman_pkgs := official ++ aur
  let pacmanResults :=
    if pacman_pkgs ≠ [] ∧ aurHelper.isSome then pacman_pkgs.map (runOne exec) else []
  let flatpakResults :=
    if flatpaks ≠ [] then flatpaks.map (runOne exec) else []
  pacmanResults ++ flatpakResults

/-- The merged batch order of `run_updates`: official then AUR items (each
in catalog order), followed by the flatpak items. -/
def batchOf (selected : List Package) : List Package :=
  (selected.filter (fun p => decide (p.source = PackageSource.official)) ++
   selected.filter (fun p => decide (p.source = PackageSource.aur))) ++
  selected.filter (fun p => decide (p.source = PackageSource.flatpak))

/-! ### Interaction state machine

`UpdaterTUI`'s mutable attributes become a state record; the `blessed`
terminal contributes only its (session-constant) height. Keys recognised by
the input loop become an inductive type (`Key.other` stands for any
unrecognised key). -/

/-- The four values of `self.mode`. -/
inductive Mode where
  | select
  | confirm
  | updating
  | results
deriving DecidableEq, Repr

/-- Keys the `run` loop dispatches on. `up` covers KEY_UP / `w` / `k`,
`down` covers KEY_DOWN / `s` / `j`; `enter` is KEY_ENTER, `quit` is `q`. -/
inductive Key where
  | up
  | down
  | left
  | right
  | pgup
  | pgdn
  | home
  | kend
  | space
  | enter
  | quit
  | other
deriving DecidableEq, Repr

/-- Return value of `activate_button` (`"exit"` / `"run_updates"` / `None`). -/
inductive Action where
  | exit
  | runUpdates
deriving DecidableEq, Repr

/-- The mutable state of `UpdaterTUI`, plus the terminal height. -/
structure TUIState where
  packages : List Package
  aurHelper : Option String
  cursor : Int
  scroll_offset : Int
  mode : Mode
  in_button_area : Bool
  button_cursor : Int
  results : List UpdateResult
  termHeight : Int
deriving DecidableEq, Repr

/-- `UpdaterTUI.visible_height`: terminal height minus the reserved chrome. -/
def visible_height (st : TUIState) : Int := st.termHeight - 10

/-- `UpdaterTUI.current_buttons`. -/
def current_buttons (st : TUIState) : List String :=
  match st.mode with
  | Mode.select => ["Select All", "Deselect All", "Update", "Exit"]
  | Mode.confirm => ["Yes, Update", "Go Back"]
  | Mode.results => ["Exit"]
  | Mode.updating => []

/-- `UpdaterTUI.move_cursor`: clamp the button cursor, or clamp the list
cursor and minimally adjust the scroll offset. -/
def move_cursor (st : TUIState) (delta : Int) : TUIState :=
  if st.in_button_area then
    let b := max 0 (min (((current_buttons st).length : Int) - 1) (st.button_cursor + delta))
    { st with button_cursor := b }
  else
    let c := max 0 (min ((st.packages.length : Int) - 1) (st.cursor + delta))
    if c < st.scroll_offset then
      { st with cursor := c, scroll_offset := c }
    else if c ≥ st.scroll_offset + visible_height st then
      { st with cursor := c, scroll_offset := c - visible_height st + 1 }
    else
      { st with cursor := c }

/-- `UpdaterTUI.move_to_buttons`. -/
def move_to_buttons (st : TUIState) : TUIState :=
  { st with in_button_area := true, button_cursor := 0 }

/-- `UpdaterTUI.move_to_list`. -/
def move_to_list (st : TUIState) : TUIState :=
  { st with in_button_area := false }

/-- Flip the `selected` flag of the element at index `i`
(`self.packages[self.cursor].selected = not ...`). -/
def toggleAt : List Package → Nat → List Package
  | [], _ => []
  | p :: ps, 0 => { p with selected := !p.selected } :: ps
  | p :: ps, n + 1 => p :: toggleAt ps n

/-- `UpdaterTUI.toggle_current`: only with list focus and a nonempty catalog. -/
def toggle_current (st : TUIState) : TUIState :=
  if !st.in_button_area ∧ st.packages ≠ [] then
    { st with packages := toggleAt st.packages st.cursor.toNat }
  else st

/-- `UpdaterTUI.select_all`. -/
def select_all (st : TUIState) : TUIState :=
  { st with packages := st.packages.map (fun p => { p with selected := true }) }

/-- `UpdaterTUI.deselect_all`. -/
def deselect_all (st : TUIState) : TUIState :=
  { st with packages := st.packages.map (fun p => { p with selected := false }) }

/-- `UpdaterTUI.activate_button`. The button label is looked up by index:
in select mode `button_cursor` is clamped to `[0,3]`, so index 3 is `Exit`;
in confirm mode it is clamped to `[0,1]`, so index 1 is `Go Back`. -/
def activate_button (st : TUIState) : TUIState × Option Action :=
  match st.mode with
  | Mode.select =>
    if st.button_cursor = 0 then (move_to_list (select_all st), none)
    else if st.button_cursor = 1 then (move_to_list (deselect_all st), none)
    else if st.button_cursor = 2 then
      if st.packages.any (fun p => p.selected) then
        ({ st with mode := Mode.confirm, in_button_area := true, button_cursor := 0 }, none)
      else (st, none)
    else (st, some Action.exit)
  | Mode.confirm =>
    if st.button_cursor = 0 then (st, some Action.runUpdates)
    else ({ st with mode := Mode.select, in_button_area := false }, none)
  | Mode.updating => (st, none)
  | Mode.results => (st, some Action.exit)

/-- `UpdaterTUI.run_updates`: execute the selected packages and transition
to the results mode with the button row focused. -/
def run_updates (exec : Package → CmdResult) (st : TUIState) : TUIState :=
  let selected := st.packages.filter (fun p => p.selected)
  { st with mode := Mode.results, in_button_area := true, button_cursor := 0,
            results := execute st.aurHelper exec selected }

/-- Button activation followed by the loop's dispatch on the returned
action (`"run_updates"` runs the executor; `"exit"` breaks the loop, which
leaves the state as activation produced it). -/
def handleActivate (exec : Package → CmdResult) (st : TUIState) : TUIState :=
  match activate_button st with
  | (st', some Action.runUpdates) => run_updates exec st'
  | (st', _) => st'

/-- One iteration of the `UpdaterTUI.run` input loop on one key. Keys are
only handled in the select, confirm and results modes. -/
def step (exec : Package → CmdResult) (st : TUIState) (k : Key) : TUIState :=
  if st.mode = Mode.updating then st else
  match k with
  | Key.up =>
    if st.in_button_area ∧ st.mode = Mode.select then
      { st with in_button_area := false,
                cursor := (st.packages.length : Int) - 1,
                scroll_offset := max 0 ((st.packages.length : Int) - visible_height st) }
    else move_cursor st (-1)
  | Key.down =>
    if !st.in_button_area ∧ st.mode = Mode.select then
      if st.cursor ≥ (st.packages.length : Int) - 1 then move_to_buttons st
      else move_cursor st 1
    else st
  | Key.left => if st.in_button_area then move_cursor st (-1) else st
  | Key.right => if st.in_button_area then move_cursor st 1 else st
  | Key.pgup => if !st.in_button_area then move_cursor st (-(visible_height st)) else st
  | Key.pgdn => if !st.in_button_area then move_cursor st (visible_height st) else st
  | Key.home => if !st.in_button_area then { st with cursor := 0, scroll_offset := 0 } else st
  | Key.kend =>
    if !st.in_button_area then
      { st with cursor := (st.packages.length : Int) - 1,
                scroll_offset := max 0 ((st.packages.length : Int) - visible_height st) }
    else st
  | Key.space =>
    if st.mode = Mode.select then
      if st.in_button_area then handleActivate exec st else toggle_current st
    else st
  | Key.enter =>
    if st.in_button_area then handleActivate exec st
    else if st.mode = Mode.select then toggle_current st
    else st
  | Key.quit => st
  | Key.other => st

/-- The initial `UpdaterTUI` state built by `main` / `__init__`. -/
def initState (packages : List Package) (aurHelper : Option String) (termHeight : Int) :
    TUIState :=
  { packages := packages, aurHelper := aurHelper, cursor := 0, scroll_offset := 0,
    mode := Mode.select, in_button_area := false, button_cursor := 0,
    results := [], termHeight := termHeight }

/-- Run the input loop over a list of keys. -/
def runKeys (exec : Package → CmdResult) (st : TUIState) (ks : List Key) : TUIState :=
  ks.foldl (step exec) st

/-- The catalog built by `main`: official results, then AUR results when a
helper was detected, then flatpak results. -/
def mainCatalog (aurHelper : Option String)
    (offRc : Int) (offOut : String) (aurRc : Int) (aurOut : String)
    (flatpakAvailable : Bool) (flatRc : Int) (flatOut : String) : List Package :=
  get_official_updates offRc offOut ++
  (match aurHelper with
   | some _ => get_aur_updates aurRc aurOut
   | none => []) ++
  get_flatpak_updates flatpakAvailable flatRc flatOut

/-! ### Invariant predicates and concrete fixtures -/

/-- The browsing cursor/scroll window invariant: the cursor is a valid
catalog index and lies inside the visible page. -/
def cursorInv (st : TUIState) : Prop :=
  0 ≤ st.cursor ∧ st.cursor < (st.packages.length : Int) ∧
  st.scroll_offset ≤ st.cursor ∧ st.cursor < st.scroll_offset + visible_height st

instance (st : TUIState) : Decidable (cursorInv st) := by
  unfold cursorInv; infer_instance

/-- A concrete official-repo package used in witnesses. -/
def pkgR0 : Package := ⟨"pkgR", "1.0", "1.1", PackageSource.official, true⟩

/-- A concrete AUR package used in witnesses. -/
def pkgA0 : Package := ⟨"pkgA", "2.0", "2.1", PackageSource.aur, true⟩

/-- A concrete flatpak package used in witnesses. -/
def pkgF0 : Package := ⟨"pkgF", "installed", "3.0", PackageSource.flatpak, true⟩

/-- `pkgR0` with its selection flag cleared. -/
def pkgR0d : Package := ⟨"pkgR", "1.0", "1.1", PackageSource.official, false⟩

/-- An oracle under which every update command succeeds. -/
def exec0 : Package → CmdResult := fun _ => ⟨0, ""⟩

/-- An oracle under which every update command fails with a network error. -/
def execNetFail : Package → CmdResult := fun _ => ⟨1, "error: network unreachable\n"⟩

/-- An oracle failing exactly on `pkgR0` (by name). -/
def execFailR : Package → CmdResult :=
  fun p => if p.name = "pkgR" then ⟨1, "boom\n"⟩ else ⟨0, ""⟩

/-- A confirm-mode state with the button row focused on `Yes, Update`. -/
def stConfirm0 : TUIState := ⟨[pkgR0], some "yay", 0, 0, Mode.confirm, true, 0, [], 20⟩

/-- A confirm-mode state with the button row focused on `Go Back`. -/
def stConfirm1 : TUIState := ⟨[pkgR0], some "yay", 0, 0, Mode.confirm, true, 1, [], 20⟩

/-- A select-mode state with nothing selected and the `Update` button focused. -/
def stDesel : TUIState := ⟨[pkgR0d], some "yay", 0, 0, Mode.select, true, 2, [], 20⟩

/-- A select-mode, list-focused state with the cursor on index 1. -/
def stToggle : TUIState := ⟨[pkgR0, pkgA0], some "yay", 1, 0, Mode.select, false, 0, [], 20⟩

/-! ### Helper lemmas -/

theorem runOne_source (exec : Package → CmdResult) (p : Package) :
    (runOne exec p).source = p.source := by
  simp only [runOne]; split <;> rfl

theorem runOne_name (exec : Package → CmdResult) (p : Package) :
    (runOne exec p).name = p.name := by
  simp only [runOne]; split <;> rfl

theorem runOne_success_iff (exec : Package → CmdResult) (p : Package) :
    (runOne exec p).success = false ↔ (exec p).returncode ≠ 0 := by
  simp only [runOne]; split <;> simp_all

theorem ite_ne_nil_map (f : Package → UpdateResult) (l : List Package) :
    (if l ≠ [] then l.map f else []) = l.map f := by
  by_cases h : l = []
  · subst h; simp
  · rw [if_pos h]

theorem execute_some (h : String) (exec : Package → CmdResult) (selected : List Package) :
    execute (some h) exec selected = (batchOf selected).map (runOne exec) := by
  simp only [execute, batchOf, Option.isSome_some, and_true]
  rw [ite_ne_nil_map, ite_ne_nil_map]
  simp only [List.map_append]

theorem execute_none (exec : Package → CmdResult) (selected : List Package) :
    execute none exec selected =
      (selected.filter (fun p => decide (p.source = PackageSource.flatpak))).map
        (runOne exec) := by
  simp only [execute, Option.isSome_none, Bool.false_eq_true, and_false, if_false,
    List.nil_append, ite_ne_nil_map]

theorem filterMap_strip_eq (lines : List String) :
    lines.filterMap (fun l => if pystrip l ≠ "" then some (pystrip l) else none) =
      (lines.filter (fun l => decide (pystrip l ≠ ""))).map pystrip := by
  induction lines with
  | nil => rfl
  | cons l ls ih =>
    simp only [List.filterMap_cons, List.filter_cons]
    by_cases hl : pystrip l = ""
    · rw [if_neg (by simp [hl]), if_neg (by simp [hl]), ih]
    · rw [if_pos (by simp [hl]), if_pos (by simp [hl]), List.map_cons, ih]

theorem getLast?_map_pystrip (l : List String) :
    (l.map pystrip).getLast? = l.getLast?.map pystrip := by
  induction l with
  | nil => rfl
  | cons a l ih =>
    cases l with
    | nil => rfl
    | cons b l' =>
      rw [List.map_cons, List.map_cons, List.getLast?_cons_cons,
        List.getLast?_cons_cons, ← List.map_cons]
      exact ih

theorem lastError_spec (s : String) :
    lastError s =
      match ((splitLines s).filter (fun l => decide (pystrip l ≠ ""))).getLast? with
      | some l => pystrip l
      | none => "Unknown error" := by
  simp only [lastError]
  rw [filterMap_strip_eq, getLast?_map_pystrip]
  cases ((splitLines s).filter (fun l => decide (pystrip l ≠ ""))).getLast? <;> rfl

/-! ### C4 -/

/-- C4: when no AUR helper was detected, the executor produces zero results
for the merged official/AUR batch while the flatpak batch still runs and
contributes its results (which all carry the flatpak source). -/
theorem no_aur_helper_silently_skips_pacman_batch (exec : Package → CmdResult)
    (selected : List Package) :
    execute none exec selected =
      (selected.filter (fun p => decide (p.source = PackageSource.flatpak))).map (runOne exec) ∧
    (execute none exec selected).all
      (fun r => decide (r.source = PackageSource.flatpak)) = true := by
  refine ⟨execute_none exec selected, ?_⟩
  rw [execute_none]
  simp only [List.all_eq_true, List.mem_map]
  rintro r ⟨p, hp, rfl⟩
  have hs := List.of_mem_filter hp
  simp only [decide_eq_true_eq] at hs ⊢
  rw [runOne_source, hs]

/-! ### C5 -/

/-- C5: a nonzero exit status yields a failed result whose error is the
last non-blank (stripped) line of the captured stderr, or the sentinel
`"Unknown error"` when stderr has no non-blank line; a zero exit status
yields a successful result with an empty error. -/
theorem failure_capture_policy (exec : Package → CmdResult) (pkg : Package) :
    ((exec pkg).returncode = 0 →
      runOne exec pkg = ⟨pkg.name, pkg.source, true, ""⟩) ∧
    ((exec pkg).returncode ≠ 0 →
      runOne exec pkg =
        ⟨pkg.name, pkg.source, false,
          match ((splitLines (exec pkg).stderr).filter
              (fun l => decide (pystrip l ≠ ""))).getLast? with
          | some l => pystrip l
          | none => "Unknown error"⟩) := by
  constructor
  · intro h0
    unfold runOne
    simp [h0]
  · intro hne
    unfold runOne
    simp only [hne, if_pos, ne_eq, not_false_eq_true, if_true]
    rw [← lastError_spec]

/-- Witness for C5: the spec's scenario, a flatpak item whose command exits
nonzero with stderr `"error: network unreachable\n"`. -/
theorem failure_capture_policy_witness :
    ((execNetFail pkgF0).returncode ≠ 0) ∧
    runOne execNetFail pkgF0 =
      ⟨"pkgF", PackageSource.flatpak, false, "error: network unreachable"⟩ :=
  ⟨by decide, by
    have h := (failure_capture_policy execNetFail pkgF0).2 (by decide)
    rw [h]; decide⟩

/-! ### C3 -/

theorem countP_compl {α : Type} (p : α → Bool) (l : List α) :
    l.countP p + l.countP (fun a => !p a) = l.length := by
  induction l with
  | nil => rfl
  | cons a l ih =>
    by_cases h : p a = true
    · simp [List.countP_cons, h, ← ih]; omega
    · simp [List.countP_cons, h, ← ih]; omega

theorem runOne_fail_decide (exec : Package → CmdResult) (p : Package) :
    decide ((runOne exec p).success = false) = decide ((exec p).returncode ≠ 0) := by
  by_cases hp : (exec p).returncode = 0 <;> simp [runOne, hp]

theorem runOne_succ_decide (exec : Package → CmdResult) (p : Package) :
    decide ((runOne exec p).success = true) = !decide ((exec p).returncode ≠ 0) := by
  by_cases hp : (exec p).returncode = 0 <;> simp [runOne, hp]

/-- C3: with an AUR helper detected, a batch in which exactly one item's
command fails yields the result list in batch order (official, then AUR,
then flatpak), with exactly one failed entry and all remaining entries
successful. -/
theorem single_failure_result_set (h : String) (exec : Package → CmdResult)
    (selected : List Package)
    (hone : (batchOf selected).countP (fun p => decide ((exec p).returncode ≠ 0)) = 1) :
    execute (some h) exec selected = (batchOf selected).map (runOne exec) ∧
    (execute (some h) exec selected).countP (fun r => decide (r.success = false)) = 1 ∧
    (execute (some h) exec selected).countP (fun r => decide (r.success = true)) =
      (batchOf selected).length - 1 := by
  have hmapfail :
      ((fun r : UpdateResult => decide (r.success = false)) ∘ runOne exec) =
        fun p => decide ((exec p).returncode ≠ 0) :=
    funext fun p => runOne_fail_decide exec p
  have hmapsucc :
      ((fun r : UpdateResult => decide (r.success = true)) ∘ runOne exec) =
        fun p => !decide ((exec p).returncode ≠ 0) :=
    funext fun p => runOne_succ_decide exec p
  refine ⟨execute_some h exec selected, ?_, ?_⟩
  · rw [execute_some, List.countP_map, hmapfail, hone]
  · rw [execute_some, List.countP_map, hmapsucc]
    have hsum := countP_compl (fun p => decide ((exec p).returncode ≠ 0)) (batchOf selected)
    omega

/-- Witness for C3: a two-item batch (one official item whose command
fails, one flatpak item that succeeds) produces exactly one failed entry. -/
theorem single_failure_result_set_witness :
    (batchOf [pkgR0, pkgF0]).countP (fun p => decide ((execFailR p).returncode ≠ 0)) = 1 ∧
    (execute (some "yay") execFailR [pkgR0, pkgF0]).countP
      (fun r => decide (r.success = false)) = 1 :=
  ⟨by decide, (single_failure_result_set "yay" execFailR [pkgR0, pkgF0] (by decide)).2.1⟩

/-! ### C7 -/

theorem toggleAt_length (ps : List Package) (i : Nat) :
    (toggleAt ps i).length = ps.length := by
  induction ps generalizing i with
  | nil => rfl
  | cons p ps ih =>
    cases i with
    | zero => rfl
    | succ n => simp [toggleAt, ih]

theorem toggleAt_getElem?_self (ps : List Package) (i : Nat) :
    (toggleAt ps i)[i]? = (ps[i]?).map (fun p => { p with selected := !p.selected }) := by
  induction ps generalizing i with
  | nil => cases i <;> rfl
  | cons p ps ih =>
    cases i with
    | zero => simp [toggleAt]
    | succ n => simpa [toggleAt] using ih n

theorem toggleAt_getElem?_ne (ps : List Package) (i j : Nat) (hj : j ≠ i) :
    (toggleAt ps i)[j]? = ps[j]? := by
  induction ps generalizing i j with
  | nil => cases i <;> rfl
  | cons p ps ih =>
    cases i with
    | zero =>
      cases j with
      | zero => exact absurd rfl hj
      | succ n => simp [toggleAt]
    | succ m =>
      cases j with
      | zero => simp [toggleAt]
      | succ n => simpa [toggleAt] using ih m n (by omega)

theorem toggleAt_toggleAt (ps : List Package) (i : Nat) :
    toggleAt (toggleAt ps i) i = ps := by
  induction ps generalizing i with
  | nil => rfl
  | cons p ps ih =>
    cases i with
    | zero => cases p; simp [toggleAt]
    | succ n => simp [toggleAt, ih]

/-- C7: toggling at a valid cursor index flips exactly that item's
`selected` flag, leaves every other item and the cursor (and scroll)
untouched, and toggling twice restores the whole state. -/
theorem toggle_flips_exactly_one (st : TUIState) (i : Nat)
    (hfocus : st.in_button_area = false) (hc : st.cursor = (i : Int))
    (hi : i < st.packages.length) :
    (toggle_current st).cursor = st.cursor ∧
    (toggle_current st).scroll_offset = st.scroll_offset ∧
    (toggle_current st).packages[i]? =
      (st.packages[i]?).map (fun p => { p with selected := !p.selected }) ∧
    (∀ j : Nat, j ≠ i → (toggle_current st).packages[j]? = st.packages[j]?) ∧
    toggle_current (toggle_current st) = st := by
  have hne : st.packages ≠ [] := by
    intro hnil; rw [hnil] at hi; simp at hi
  have hcond : (!st.in_button_area) = true ∧ st.packages ≠ [] := ⟨by rw [hfocus]; rfl, hne⟩
  have htoNat : st.cursor.toNat = i := by rw [hc]; exact Int.toNat_natCast i
  have key : toggle_current st = { st with packages := toggleAt st.packages i } := by
    unfold toggle_current
    rw [if_pos hcond, htoNat]
  refine ⟨by rw [key], by rw [key], ?_, ?_, ?_⟩
  · rw [key]; exact toggleAt_getElem?_self st.packages i
  · intro j hj; rw [key]; exact toggleAt_getElem?_ne st.packages i j hj
  · rw [key]
    unfold toggle_current
    dsimp only
    have hne2 : toggleAt st.packages i ≠ [] := by
      intro hnil
      have hlen := toggleAt_length st.packages i
      rw [hnil] at hlen
      exact hne (List.length_eq_zero.mp hlen.symm)
    rw [if_pos ⟨hcond.1, hne2⟩, htoNat, toggleAt_toggleAt]

/-- Witness for C7: toggling index 1 of a two-item catalog twice restores
the state. -/
theorem toggle_flips_exactly_one_witness :
    stToggle.in_button_area = false ∧
    toggle_current (toggle_current stToggle) = stToggle :=
  ⟨rfl, (toggle_flips_exactly_one stToggle 1 rfl rfl (by decide)).2.2.2.2⟩

/-! ### C2 -/

/-- Counterexample for C2: an AUR `-Qum` line consisting of a single field
has a name present, yet `get_aur_updates` drops it silently instead of
emitting a partial item with placeholder version `"?"`. -/
theorem aur_single_field_dropped_counterexample :
    pysplit "somepkg" = ["somepkg"] ∧
    (pysplit "somepkg").length = 1 ∧
    parseAurLine "somepkg" = [] ∧
    get_aur_updates 0 "somepkg" = [] := by decide

/-- C2 (amended): the official adapter emits a full item for a line with at
least four fields and otherwise drops the line; the AUR adapter emits a
full item for at least four fields, a partial item with placeholder version
`"?"` for two or three fields, and drops a line with fewer than two fields
(even when a name is present); the flatpak adapter emits an item whenever
the first tab column strips to a nonempty name, with version `"?"` when the
second column is absent, and drops the line otherwise. -/
theorem adapter_line_policy (line : String) :
    ((pysplit line).length ≥ 4 →
      parseOfficialLine line =
        [⟨(pysplit line).getD 0 "", (pysplit line).getD 1 "", (pysplit line).getD 3 "",
          PackageSource.official, true⟩]) ∧
    ((pysplit line).length < 4 → parseOfficialLine line = []) ∧
    ((pysplit line).length ≥ 4 →
      parseAurLine line =
        [⟨(pysplit line).getD 0 "", (pysplit line).getD 1 "", (pysplit line).getD 3 "",
          PackageSource.aur, true⟩]) ∧
    (2 ≤ (pysplit line).length → (pysplit line).length < 4 →
      parseAurLine line =
        [⟨(pysplit line).getD 0 "", (pysplit line).getD 1 "", "?",
          PackageSource.aur, true⟩]) ∧
    ((pysplit line).length < 2 → parseAurLine line = []) ∧
    (pystrip ((splitTab line).getD 0 "") ≠ "" → 2 ≤ (splitTab line).length →
      parseFlatpakLine line =
        [⟨pystrip ((splitTab line).getD 0 ""), "installed",
          pystrip ((splitTab line).getD 1 ""), PackageSource.flatpak, true⟩]) ∧
    (pystrip ((splitTab line).getD 0 "") ≠ "" → (splitTab line).length < 2 →
      parseFlatpakLine line =
        [⟨pystrip ((splitTab line).getD 0 ""), "installed", "?",
          PackageSource.flatpak, true⟩]) ∧
    (pystrip ((splitTab line).getD 0 "") = "" → parseFlatpakLine line = []) := by
  refine ⟨?_, ?_, ?_, ?_, ?_, ?_, ?_, ?_⟩
  · intro h4
    simp only [parseOfficialLine]
    rw [if_pos h4]
  · intro h4
    simp only [parseOfficialLine]
    rw [if_neg (by omega)]
  · intro h4
    simp only [parseAurLine]
    rw [if_pos h4]
  · intro h2 h4
    simp only [parseAurLine]
    rw [if_neg (by omega), if_pos (by omega), if_pos (by omega)]
  · intro h2
    simp only [parseAurLine]
    rw [if_neg (by omega), if_neg (by omega)]
  · intro hname h2
    simp only [parseFlatpakLine]
    rw [if_pos hname, if_pos (show (splitTab line).length > 1 by omega)]
  · intro hname h2
    simp only [parseFlatpakLine]
    rw [if_pos hname, if_neg (show ¬(splitTab line).length > 1 by omega)]
  · intro hname
    simp only [parseFlatpakLine]
    rw [if_neg (by rw [hname]; exact fun h => h rfl)]

/-- Witness for C2 (amended): a two-field AUR line yields the partial item. -/
theorem adapter_line_policy_witness :
    2 ≤ (pysplit "aurpkg 2.0").length ∧ (pysplit "aurpkg 2.0").length < 4 ∧
    parseAurLine "aurpkg 2.0" = [⟨"aurpkg", "2.0", "?", PackageSource.aur, true⟩] := by
  refine ⟨by decide, by decide, ?_⟩
  have h := (adapter_line_policy "aurpkg 2.0").2.2.2.1 (by decide) (by decide)
  rw [h]; decide

/-! ### C8 -/

theorem parseOfficialLine_fields (line : String) :
    ∀ p ∈ parseOfficialLine line,
      p.selected = true ∧ p.source = PackageSource.official := by
  intro p hp
  simp only [parseOfficialLine] at hp
  split at hp
  · rw [List.mem_singleton] at hp
    subst hp
    exact ⟨rfl, rfl⟩
  · simp at hp

theorem parseAurLine_fields (line : String) :
    ∀ p ∈ parseAurLine line, p.selected = true ∧ p.source = PackageSource.aur := by
  intro p hp
  simp only [parseAurLine] at hp
  split at hp
  · rw [List.mem_singleton] at hp
    subst hp
    exact ⟨rfl, rfl⟩
  · split at hp
    · rw [List.mem_singleton] at hp
      subst hp
      exact ⟨rfl, rfl⟩
    · simp at hp

theorem parseFlatpakLine_fields (line : String) :
    ∀ p ∈ parseFlatpakLine line,
      p.selected = true ∧ p.source = PackageSource.flatpak := by
  intro p hp
  simp only [parseFlatpakLine] at hp
  split at hp
  · rw [List.mem_singleton] at hp
    subst hp
    exact ⟨rfl, rfl⟩
  · simp at hp

theorem get_official_updates_fields (rc : Int) (out : String) :
    ∀ p ∈ get_official_updates rc out,
      p.selected = true ∧ p.source = PackageSource.official := by
  intro p hp
  simp only [get_official_updates] at hp
  split at hp
  · rw [List.mem_flatMap] at hp
    obtain ⟨l, _, hl⟩ := hp
    exact parseOfficialLine_fields l p hl
  · simp at hp

theorem get_aur_updates_fields (rc : Int) (out : String) :
    ∀ p ∈ get_aur_updates rc out,
      p.selected = true ∧ p.source = PackageSource.aur := by
  intro p hp
  simp only [get_aur_updates] at hp
  split at hp
  · rw [List.mem_flatMap] at hp
    obtain ⟨l, _, hl⟩ := hp
    exact parseAurLine_fields l p hl
  · simp at hp

theorem get_flatpak_updates_fields (avail : Bool) (rc : Int) (out : String) :
    ∀ p ∈ get_flatpak_updates avail rc out,
      p.selected = true ∧ p.source = PackageSource.flatpak := by
  intro p hp
  simp only [get_flatpak_updates] at hp
  split at hp
  · split at hp
    · rw [List.mem_flatMap] at hp
      obtain ⟨l, _, hl⟩ := hp
      exact parseFlatpakLine_fields l p hl
    · simp at hp
  · simp at hp

/-- C8: the catalog built by `main` is the concatenation of the three
adapter results in fixed source-priority order (official, then AUR, then
flatpak) and every item in it is selected. -/
theorem aggregate_order_and_selected (helper : Option String)
    (offRc : Int) (offOut : String) (aurRc : Int) (aurOut : String)
    (flatpakAvailable : Bool) (flatRc : Int) (flatOut : String) :
    (∀ p ∈ mainCatalog helper offRc offOut aurRc aurOut flatpakAvailable flatRc flatOut,
      p.selected = true) ∧
    ∃ A B C,
      mainCatalog helper offRc offOut aurRc aurOut flatpakAvailable flatRc flatOut =
        A ++ B ++ C ∧
      (∀ p ∈ A, p.source = PackageSource.official) ∧
      (∀ p ∈ B, p.source = PackageSource.aur) ∧
      (∀ p ∈ C, p.source = PackageSource.flatpak) ∧
      A = get_official_updates offRc offOut ∧
      C = get_flatpak_updates flatpakAvailable flatRc flatOut := by
  constructor
  · intro p hp
    simp only [mainCatalog, List.mem_append] at hp
    rcases hp with (hp | hp) | hp
    · exact (get_official_updates_fields offRc offOut p hp).1
    · cases helper with
      | none => simp at hp
      | some h => exact (get_aur_updates_fields aurRc aurOut p hp).1
    · exact (get_flatpak_updates_fields flatpakAvailable flatRc flatOut p hp).1
  · refine ⟨get_official_updates offRc offOut,
      (match helper with
       | some _ => get_aur_updates aurRc aurOut
       | none => []),
      get_flatpak_updates flatpakAvailable flatRc flatOut,
      by simp [mainCatalog], ?_, ?_, ?_, rfl, rfl⟩
    · intro p hp
      exact (get_official_updates_fields offRc offOut p hp).2
    · intro p hp
      cases helper with
      | none => simp at hp
      | some h => exact (get_aur_updates_fields aurRc aurOut p hp).2
    · intro p hp
      exact (get_flatpak_updates_fields flatpakAvailable flatRc flatOut p hp).2

/-- Witness for C8: a concrete three-source catalog contains the parsed
official item, and the theorem proves it selected. -/
theorem aggregate_order_and_selected_witness :
    (⟨"alsa", "1.0", "1.1", PackageSource.official, true⟩ : Package) ∈
      mainCatalog (some "yay") 0 "alsa 1.0 -> 1.1" 0 "aurpkg 2.0 -> 2.1" true 0
        "org.app\t3.0" ∧
    (⟨"alsa", "1.0", "1.1", PackageSource.official, true⟩ : Package).selected = true :=
  ⟨by decide,
   (aggregate_order_and_selected (some "yay") 0 "alsa 1.0 -> 1.1" 0 "aurpkg 2.0 -> 2.1"
      true 0 "org.app\t3.0").1 _ (by decide)⟩

/-! ### C9 -/

/-- C9: while in confirm mode with the button row focused, no input event
changes the list cursor, the scroll offset or the catalog (so they are
still as they were when confirm was entered); activating `Go Back`
(button index 1) returns to select mode with focus back on the list and
everything else untouched. -/
theorem go_back_frame (exec : Package → CmdResult) (st : TUIState)
    (hm : st.mode = Mode.confirm) (hb : st.in_button_area = true) :
    (∀ k : Key, (step exec st k).cursor = st.cursor ∧
      (step exec st k).scroll_offset = st.scroll_offset ∧
      (step exec st k).packages = st.packages) ∧
    (st.button_cursor = 1 →
      activate_button st =
        ({ st with mode := Mode.select, in_button_area := false }, none)) := by
  constructor
  · intro k
    cases k
    case enter =>
      by_cases hbc : st.button_cursor = 0 <;>
        simp [step, hm, hb, handleActivate, activate_button, hbc, run_updates]
    all_goals simp [step, hm, hb, move_cursor]
  · intro hbc
    simp [activate_button, hm, hbc]

/-- Witness for C9: a concrete confirm-mode state with `Go Back` focused. -/
theorem go_back_frame_witness :
    (step exec0 stConfirm1 Key.left).packages = stConfirm1.packages ∧
    activate_button stConfirm1 =
      ({ stConfirm1 with mode := Mode.select, in_button_area := false }, none) :=
  ⟨((go_back_frame exec0 stConfirm1 rfl rfl).1 Key.left).2.2,
   (go_back_frame exec0 stConfirm1 rfl rfl).2 rfl⟩

/-! ### C10 -/

/-- Counterexample for C10: in confirm mode with the button row focused on
index 0, the right key moves `button_cursor` to 1 but the down key leaves
the whole state unchanged — the down keys are not routed through
`move_cursor` outside select-mode list focus. -/
theorem vertical_keys_counterexample :
    stConfirm0.mode = Mode.confirm ∧
    stConfirm0.in_button_area = true ∧
    (step exec0 stConfirm0 Key.right).button_cursor = 1 ∧
    (step exec0 stConfirm0 Key.down).button_cursor = 0 ∧
    step exec0 stConfirm0 Key.down = stConfirm0 := by decide

/-- C10 (amended): in confirm and results modes (button focus), the up keys
move `button_cursor` through `move_cursor` exactly like the left key,
clamped to `[0, button count - 1]`, while the down keys are inert no-ops. -/
theorem vertical_keys_on_buttons (exec : Package → CmdResult) (st : TUIState)
    (hm : st.mode = Mode.confirm ∨ st.mode = Mode.results)
    (hb : st.in_button_area = true) :
    step exec st Key.up = move_cursor st (-1) ∧
    step exec st Key.up = step exec st Key.left ∧
    (step exec st Key.up).button_cursor =
      max 0 (min (((current_buttons st).length : Int) - 1) (st.button_cursor - 1)) ∧
    step exec st Key.down = st := by
  obtain hm | hm := hm <;> simp [step, hm, hb, move_cursor, Int.sub_eq_add_neg]

/-- Witness for C10 (amended): from button index 1 in confirm mode, up
clamps to 0 and down is a no-op. -/
theorem vertical_keys_on_buttons_witness :
    (step exec0 stConfirm1 Key.up).button_cursor = 0 ∧
    step exec0 stConfirm1 Key.down = stConfirm1 :=
  ⟨by
    have h := (vertical_keys_on_buttons exec0 stConfirm1 (Or.inl rfl) rfl).2.2.1
    rw [h]; decide,
   (vertical_keys_on_buttons exec0 stConfirm1 (Or.inl rfl) rfl).2.2.2⟩

/-! ### C1: frame lemmas -/

theorem move_cursor_frame (st : TUIState) (d : Int) :
    (move_cursor st d).packages = st.packages ∧
    (move_cursor st d).termHeight = st.termHeight ∧
    (move_cursor st d).mode = st.mode := by
  simp only [move_cursor]
  split_ifs <;> exact ⟨rfl, rfl, rfl⟩

theorem toggle_current_frame (st : TUIState) :
    (toggle_current st).packages.length = st.packages.length ∧
    (toggle_current st).termHeight = st.termHeight ∧
    (toggle_current st).mode = st.mode := by
  unfold toggle_current
  split_ifs with hc
  · exact ⟨toggleAt_length _ _, rfl, rfl⟩
  · exact ⟨rfl, rfl, rfl⟩

theorem activate_frame (st : TUIState) :
    (activate_button st).1.packages.length = st.packages.length ∧
    (activate_button st).1.termHeight = st.termHeight := by
  unfold activate_button
  cases hm : st.mode
  · dsimp only
    split_ifs <;> simp [move_to_list, select_all, deselect_all]
  · dsimp only
    split_ifs <;> exact ⟨rfl, rfl⟩
  · exact ⟨rfl, rfl⟩
  · exact ⟨rfl, rfl⟩

theorem run_updates_frame (exec : Package → CmdResult) (st : TUIState) :
    (run_updates exec st).packages = st.packages ∧
    (run_updates exec st).termHeight = st.termHeight := ⟨rfl, rfl⟩

theorem handleActivate_frame (exec : Package → CmdResult) (st : TUIState) :
    (handleActivate exec st).packages.length = st.packages.length ∧
    (handleActivate exec st).termHeight = st.termHeight := by
  unfold handleActivate
  have hf := activate_frame st
  rcases ha : activate_button st with ⟨st', act⟩
  rw [ha] at hf
  cases act with
  | none => exact hf
  | some a =>
    cases a with
    | exit => exact hf
    | runUpdates =>
      dsimp only
      refine ⟨?_, ?_⟩
      · rw [(run_updates_frame exec st').1]
        exact hf.1
      · rw [(run_updates_frame exec st').2]
        exact hf.2

theorem step_frame (exec : Package → CmdResult) (st : TUIState) (k : Key) :
    (step exec st k).packages.length = st.packages.length ∧
    (step exec st k).termHeight = st.termHeight := by
  by_cases hu : st.mode = Mode.updating
  · simp [step, hu]
  · simp only [step, if_neg hu]
    cases k with
    | up =>
      dsimp only
      split_ifs
      · exact ⟨rfl, rfl⟩
      · exact ⟨congrArg List.length (move_cursor_frame st _).1, (move_cursor_frame st _).2.1⟩
    | down =>
      dsimp only
      split_ifs
      · exact ⟨rfl, rfl⟩
      · exact ⟨congrArg List.length (move_cursor_frame st _).1, (move_cursor_frame st _).2.1⟩
      · exact ⟨rfl, rfl⟩
    | left =>
      dsimp only
      split_ifs
      · exact ⟨congrArg List.length (move_cursor_frame st _).1, (move_cursor_frame st _).2.1⟩
      · exact ⟨rfl, rfl⟩
    | right =>
      dsimp only
      split_ifs
      · exact ⟨congrArg List.length (move_cursor_frame st _).1, (move_cursor_frame st _).2.1⟩
      · exact ⟨rfl, rfl⟩
    | pgup =>
      dsimp only
      split_ifs
      · exact ⟨congrArg List.length (move_cursor_frame st _).1, (move_cursor_frame st _).2.1⟩
      · exact ⟨rfl, rfl⟩
    | pgdn =>
      dsimp only
      split_ifs
      · exact ⟨congrArg List.length (move_cursor_frame st _).1, (move_cursor_frame st _).2.1⟩
      · exact ⟨rfl, rfl⟩
    | home =>
      dsimp only
      split_ifs <;> exact ⟨rfl, rfl⟩
    | kend =>
      dsimp only
      split_ifs <;> exact ⟨rfl, rfl⟩
    | space =>
      dsimp only
      split_ifs
      · exact handleActivate_frame exec st
      · exact ⟨(toggle_current_frame st).1, (toggle_current_frame st).2.1⟩
      · exact ⟨rfl, rfl⟩
    | enter =>
      dsimp only
      split_ifs
      · exact handleActivate_frame exec st
      · exact ⟨(toggle_current_frame st).1, (toggle_current_frame st).2.1⟩
      · exact ⟨rfl, rfl⟩
    | quit => exact ⟨rfl, rfl⟩
    | other => exact ⟨rfl, rfl⟩

theorem runKeys_frame (exec : Package → CmdResult) (ks : List Key) (st : TUIState) :
    (runKeys exec st ks).packages.length = st.packages.length ∧
    (runKeys exec st ks).termHeight = st.termHeight := by
  induction ks generalizing st with
  | nil => exact ⟨rfl, rfl⟩
  | cons k ks ih =>
    refine ⟨?_, ?_⟩
    · rw [show runKeys exec st (k :: ks) = runKeys exec (step exec st k) ks from rfl,
        (ih (step exec st k)).1, (step_frame exec st k).1]
    · rw [show runKeys exec st (k :: ks) = runKeys exec (step exec st k) ks from rfl,
        (ih (step exec st k)).2, (step_frame exec st k).2]

/-! ### C1: invariant preservation -/

theorem move_cursor_inv (st : TUIState) (d : Int) (h : cursorInv st) :
    cursorInv (move_cursor st d) := by
  obtain ⟨h1, h2, h3, h4⟩ := h
  by_cases hb : st.in_button_area
  · simp only [move_cursor, if_pos hb]
    exact ⟨h1, h2, h3, h4⟩
  · simp only [move_cursor, if_neg hb]
    unfold cursorInv visible_height at *
    split_ifs with hc1 hc2 <;> dsimp only <;> omega

theorem toggle_current_inv (st : TUIState) (h : cursorInv st) :
    cursorInv (toggle_current st) := by
  unfold toggle_current
  split_ifs with hc
  · unfold cursorInv visible_height at *
    dsimp only
    rw [toggleAt_length]
    exact h
  · exact h

theorem activate_inv (st : TUIState) (h : cursorInv st) :
    cursorInv (activate_button st).1 := by
  have hmap : ∀ f : Package → Package,
      cursorInv { st with packages := st.packages.map f, in_button_area := false } := by
    intro f
    unfold cursorInv visible_height at *
    dsimp only
    rw [List.length_map]
    exact h
  unfold activate_button
  cases hm : st.mode
  · dsimp only
    split_ifs
    · exact hmap _
    · exact hmap _
    · exact h
    · exact h
    · exact h
  · dsimp only
    split_ifs <;> exact h
  · exact h
  · exact h

theorem run_updates_inv (exec : Package → CmdResult) (st : TUIState) (h : cursorInv st) :
    cursorInv (run_updates exec st) := h

theorem handleActivate_inv (exec : Package → CmdResult) (st : TUIState) (h : cursorInv st) :
    cursorInv (handleActivate exec st) := by
  unfold handleActivate
  have h' := activate_inv st h
  rcases ha : activate_button st with ⟨st', act⟩
  rw [ha] at h'
  cases act with
  | none => exact h'
  | some a =>
    cases a with
    | exit => exact h'
    | runUpdates => exact run_updates_inv exec st' h'

theorem step_inv (exec : Package → CmdResult) (st : TUIState) (k : Key) (h : cursorInv st) :
    cursorInv (step exec st k) := by
  by_cases hu : st.mode = Mode.updating
  · simp only [step, if_pos hu]; exact h
  · simp only [step, if_neg hu]
    cases k with
    | up =>
      dsimp only
      split_ifs with hc
      · unfold cursorInv visible_height at *
        dsimp only
        omega
      · exact move_cursor_inv st _ h
    | down =>
      dsimp only
      split_ifs with hc1 hc2
      · exact h
      · exact move_cursor_inv st _ h
      · exact h
    | left =>
      dsimp only
      split_ifs with hc
      · exact move_cursor_inv st _ h
      · exact h
    | right =>
      dsimp only
      split_ifs with hc
      · exact move_cursor_inv st _ h
      · exact h
    | pgup =>
      dsimp only
      split_ifs with hc
      · exact move_cursor_inv st _ h
      · exact h
    | pgdn =>
      dsimp only
      split_ifs with hc
      · exact move_cursor_inv st _ h
      · exact h
    | home =>
      dsimp only
      split_ifs with hc
      · unfold cursorInv visible_height at *
        dsimp only
        omega
      · exact h
    | kend =>
      dsimp only
      split_ifs with hc
      · unfold cursorInv visible_height at *
        dsimp only
        omega
      · exact h
    | space =>
      dsimp only
      split_ifs with hm hb
      · exact handleActivate_inv exec st h
      · exact toggle_current_inv st h
      · exact h
    | enter =>
      dsimp only
      split_ifs with hb hm
      · exact handleActivate_inv exec st h
      · exact toggle_current_inv st h
      · exact h
    | quit => exact h
    | other => exact h

theorem runKeys_inv (exec : Package → CmdResult) (ks : List Key) (st : TUIState)
    (h : cursorInv st) : cursorInv (runKeys exec st ks) := by
  induction ks generalizing st with
  | nil => exact h
  | cons k ks ih => exact ih (step exec st k) (step_inv exec st k h)

/-! ### C1: claim theorems -/

/-- Counterexample for C1: with a terminal of height 10 the page size
`term.height - 10` is zero, so already in the initial browsing state (list
focus, nonempty catalog, empty input sequence) the scroll-window condition
`scroll_offset ≤ cursor < scroll_offset + page_size` fails. -/
theorem cursor_window_counterexample :
    (initState [pkgR0] none 10).mode = Mode.select ∧
    (initState [pkgR0] none 10).in_button_area = false ∧
    1 ≤ (initState [pkgR0] none 10).packages.length ∧
    runKeys exec0 (initState [pkgR0] none 10) [] = initState [pkgR0] none 10 ∧
    ¬((initState [pkgR0] none 10).cursor <
        (initState [pkgR0] none 10).scroll_offset +
          visible_height (initState [pkgR0] none 10)) := by
  decide

/-- C1 (amended): for a nonempty catalog and a terminal tall enough that
the page size `h - 10` is at least 1, every state reachable from the
initial browsing state by any input sequence keeps the cursor within
`[0, len(catalog) - 1]` and inside the scroll window
`scroll_offset ≤ cursor < scroll_offset + page_size`. -/
theorem cursor_window_invariant (exec : Package → CmdResult) (packages : List Package)
    (aurHelper : Option String) (h : Int) (ks : List Key)
    (hlen : 1 ≤ packages.length) (hh : 11 ≤ h) :
    0 ≤ (runKeys exec (initState packages aurHelper h) ks).cursor ∧
    (runKeys exec (initState packages aurHelper h) ks).cursor ≤
      (packages.length : Int) - 1 ∧
    (runKeys exec (initState packages aurHelper h) ks).scroll_offset ≤
      (runKeys exec (initState packages aurHelper h) ks).cursor ∧
    (runKeys exec (initState packages aurHelper h) ks).cursor <
      (runKeys exec (initState packages aurHelper h) ks).scroll_offset + (h - 10) := by
  have h0 : cursorInv (initState packages aurHelper h) := by
    unfold cursorInv initState visible_height
    dsimp only
    omega
  have hinv := runKeys_inv exec ks _ h0
  have hframe := runKeys_frame exec ks (initState packages aurHelper h)
  have hl : (runKeys exec (initState packages aurHelper h) ks).packages.length =
      packages.length := hframe.1
  have ht : (runKeys exec (initState packages aurHelper h) ks).termHeight = h := hframe.2
  unfold cursorInv visible_height at hinv
  rw [hl, ht] at hinv
  omega

/-- Witness for C1 (amended): a three-item catalog on a height-20 terminal
after a short key sequence. -/
theorem cursor_window_invariant_witness :
    1 ≤ ([pkgR0, pkgA0, pkgF0] : List Package).length ∧ (11 : Int) ≤ 20 ∧
    0 ≤ (runKeys exec0 (initState [pkgR0, pkgA0, pkgF0] (some "yay") 20)
          [Key.down, Key.kend, Key.up]).cursor ∧
    (runKeys exec0 (initState [pkgR0, pkgA0, pkgF0] (some "yay") 20)
          [Key.down, Key.kend, Key.up]).cursor ≤
      (([pkgR0, pkgA0, pkgF0] : List Package).length : Int) - 1 :=
  ⟨by decide, by decide,
   (cursor_window_invariant exec0 [pkgR0, pkgA0, pkgF0] (some "yay") 20
      [Key.down, Key.kend, Key.up] (by decide) (by decide)).1,
   (cursor_window_invariant exec0 [pkgR0, pkgA0, pkgF0] (some "yay") 20
      [Key.down, Key.kend, Key.up] (by decide) (by decide)).2.1⟩

/-! ### C6 -/

theorem toggle_current_mode (st : TUIState) : (toggle_current st).mode = st.mode := by
  unfold toggle_current
  split_ifs <;> rfl

theorem handleActivate_confirm_selected (exec : Package → CmdResult) (st : TUIState)
    (h : st.mode = Mode.confirm → st.packages.any (fun p => p.selected) = true) :
    (handleActivate exec st).mode = Mode.confirm →
      (handleActivate exec st).packages.any (fun p => p.selected) = true := by
  unfold handleActivate activate_button
  cases hm : st.mode
  · dsimp only
    split_ifs with h0 h1 h2 hany
    · intro hc
      simp only [move_to_list, select_all] at hc
      rw [hm] at hc
      exact absurd hc (by decide)
    · intro hc
      simp only [move_to_list, deselect_all] at hc
      rw [hm] at hc
      exact absurd hc (by decide)
    · dsimp only
      intro _
      exact hany
    · dsimp only
      intro hc
      rw [hm] at hc
      exact absurd hc (by decide)
    · dsimp only
      intro hc
      rw [hm] at hc
      exact absurd hc (by decide)
  · dsimp only
    split_ifs with h0
    · dsimp only
      intro hc
      simp only [run_updates] at hc
      exact absurd hc (by decide)
    · dsimp only
      intro hc
      exact absurd hc (by decide)
  · dsimp only
    exact h
  · dsimp only
    exact h

theorem step_confirm_selected (exec : Package → CmdResult) (st : TUIState) (k : Key)
    (h : st.mode = Mode.confirm → st.packages.any (fun p => p.selected) = true) :
    (step exec st k).mode = Mode.confirm →
      (step exec st k).packages.any (fun p => p.selected) = true := by
  by_cases hu : st.mode = Mode.updating
  · simp only [step, if_pos hu]
    exact h
  · simp only [step, if_neg hu]
    cases k with
    | up =>
      dsimp only
      split_ifs with hc
      · dsimp only
        exact h
      · intro hc2
        rw [(move_cursor_frame st _).2.2] at hc2
        rw [(move_cursor_frame st _).1]
        exact h hc2
    | down =>
      dsimp only
      split_ifs with hc1 hc2
      · exact h
      · intro hc3
        rw [(move_cursor_frame st _).2.2] at hc3
        rw [(move_cursor_frame st _).1]
        exact h hc3
      · exact h
    | left =>
      dsimp only
      split_ifs with hc
      · intro hc2
        rw [(move_cursor_frame st _).2.2] at hc2
        rw [(move_cursor_frame st _).1]
        exact h hc2
      · exact h
    | right =>
      dsimp only
      split_ifs with hc
      · intro hc2
        rw [(move_cursor_frame st _).2.2] at hc2
        rw [(move_cursor_frame st _).1]
        exact h hc2
      · exact h
    | pgup =>
      dsimp only
      split_ifs with hc
      · intro hc2
        rw [(move_cursor_frame st _).2.2] at hc2
        rw [(move_cursor_frame st _).1]
        exact h hc2
      · exact h
    | pgdn =>
      dsimp only
      split_ifs with hc
      · intro hc2
        rw [(move_cursor_frame st _).2.2] at hc2
        rw [(move_cursor_frame st _).1]
        exact h hc2
      · exact h
    | home =>
      dsimp only
      split_ifs with hc
      · dsimp only
        exact h
      · exact h
    | kend =>
      dsimp only
      split_ifs with hc
      · dsimp only
        exact h
      · exact h
    | space =>
      dsimp only
      split_ifs with hm hb
      · exact handleActivate_confirm_selected exec st h
      · intro hc
        rw [toggle_current_mode] at hc
        rw [hm] at hc
        exact absurd hc (by decide)
      · exact h
    | enter =>
      dsimp only
      split_ifs with hb hm
      · exact handleActivate_confirm_selected exec st h
      · intro hc
        rw [toggle_current_mode] at hc
        rw [hm] at hc
        exact absurd hc (by decide)
      · exact h
    | quit => exact h
    | other => exact h

theorem runKeys_confirm_selected (exec : Package → CmdResult) (ks : List Key)
    (st : TUIState)
    (h : st.mode = Mode.confirm → st.packages.any (fun p => p.selected) = true) :
    (runKeys exec st ks).mode = Mode.confirm →
      (runKeys exec st ks).packages.any (fun p => p.selected) = true := by
  induction ks generalizing st with
  | nil => exact h
  | cons k ks ih => exact ih (step exec st k) (step_confirm_selected exec st k h)

/-- C6: in every state reachable from the initial browsing state, confirm
mode implies at least one selected catalog item; activating the `Update`
button with zero selected items is a complete no-op that stays in select
mode. -/
theorem confirm_unreachable_with_zero_selected (exec : Package → CmdResult)
    (packages : List Package) (aurHelper : Option String) (h : Int) (ks : List Key) :
    ((runKeys exec (initState packages aurHelper h) ks).mode = Mode.confirm →
      (runKeys exec (initState packages aurHelper h) ks).packages.any
        (fun p => p.selected) = true) ∧
    (∀ st : TUIState, st.mode = Mode.select → st.button_cursor = 2 →
      st.packages.any (fun p => p.selected) = false →
      activate_button st = (st, none)) := by
  constructor
  · refine runKeys_confirm_selected exec ks _ ?_
    intro hc
    simp [initState] at hc
  · intro st hm hbc hany
    simp [activate_button, hm, hbc, hany]

/-- Witness for C6: a concrete select-mode state with nothing selected and
the `Update` button focused: activation changes nothing. -/
theorem confirm_unreachable_witness :
    stDesel.mode = Mode.select ∧ stDesel.packages.any (fun p => p.selected) = false ∧
    activate_button stDesel = (stDesel, none) :=
  ⟨rfl, by decide,
   (confirm_unreachable_with_zero_selected exec0 [pkgR0] none 20 []).2 stDesel rfl rfl
     (by decide)⟩

end Oblivius
